import Mathlib

/-!
Verification development for the gdb varobj subsystem (src/gdb/varobj.c).

The definitions below are a shallow embedding of the C source.  External
collaborators (expression evaluation, frame lookup, lazy-value fetching,
RTTI resolution) are modelled as oracle inputs: a `GValue` carries the
outcome that the corresponding `struct value *` would produce when its
contents are read, and the environment records what each external call
would return during one pass.
-/

set_option maxHeartbeats 1000000

namespace Varobj

/-- Model of a gdb `struct value *` that has been produced by evaluation.
`content` stands for the value bits, `err` records whether reading the
contents faults (so `gdb_value_equal` on it fails), and `lazy` models
`VALUE_LAZY`. -/
structure GValue where
  content : Int
  err : Bool
  lazy : Bool
deriving DecidableEq, Repr

/-- Model of `gdb_value_equal (v1, v2, &r)`: the wrapped comparison fails (returns 0)
iff reading either operand faults; otherwise it stores the comparison
result. `none` models the failing call. -/
def gdb_value_equal (v1 v2 : GValue) : Option Bool :=
  if v1.err || v2.err then none else some (v1.content == v2.content)

/-- Model of `my_value_equal (val1, val2, &error2)` from varobj.c lines 1920-1971,
returned as (comparison result, final `*error2`).  `none` models a NULL
`struct value *`.  Faithful to the source: `*error2 = 0` up front; two NULL
values compare equal; one NULL compares unequal; otherwise `err1`/`err2`
are set from self-comparisons of each operand (and `*error2` from the
second), a differing error state compares unequal, a failing cross
comparison with equal error states compares equal, and otherwise the
result of `gdb_value_equal (val1, val2)` is returned. -/
def my_value_equal (val1 val2 : Option GValue) : Bool × Bool :=
  match val1, val2 with
  | none, none => (true, false)
  | none, some _ => (false, false)
  | some _, none => (false, false)
  | some v1, some v2 =>
    let err1 := (gdb_value_equal v1 v1).isNone
    let err2 := (gdb_value_equal v2 v2).isNone
    if err1 != err2 then (false, err2)
    else
      match gdb_value_equal v1 v2 with
      | none => (if err1 == err2 then true else false, err2)
      | some r => (r, err2)

/-! ## Registry (hash table of object names, root list) -/

/-- The process-wide registry state: the set of installed object names
(the 227-bucket chained hash table of varobj.c keyed by `obj_name` is
modelled associatively, since equal names always hash to the same bucket)
together with `rootcount`. -/
structure Registry where
  names : List String
  rootcount : Nat
deriving DecidableEq, Repr

/-- Model of `install_variable` (varobj.c lines 1530-1570): walking the bucket chain
finds an entry with the same `obj_name` and raises
"Duplicate variable object name" (a longjmp, modelled as `Except.error`)
before anything is inserted; otherwise the varobj is added to the hash
table and, when it is a root, to the root list with `rootcount++`. -/
def install_variable (reg : Registry) (isRoot : Bool) (objName : String) :
    Except String Registry :=
  if objName ∈ reg.names then .error "Duplicate variable object name"
  else .ok { names := objName :: reg.names,
             rootcount := if isRoot then reg.rootcount + 1 else reg.rootcount }

/-- The registry-facing tail of `varobj_create` (varobj.c lines 856-880):
the expression parsing and evaluation part (lines 678-854) never touches
the registry, so its outcome is summarised by `buildOk` (whether a varobj
was constructed rather than the `error_cleanup` path being taken).  A
named creation then installs the object; an install failure discards the
object (`do_cleanups`) and returns NULL with the registry untouched.
Result: (created object name or `none`, registry afterwards). -/
def varobj_create_install (reg : Registry) (buildOk : Bool)
    (objname : Option String) : Option String × Registry :=
  if buildOk then
    match objname with
    | some n =>
      match install_variable reg true n with
      | .ok reg2 => (some n, reg2)
      | .error _ => (none, reg)
    | none => (none, reg)
  else (none, reg)

/-- Model of `varobj_get_handle` (varobj.c lines 900-921): chain lookup by name;
an absent name raises "Variable object not found". -/
def varobj_get_handle (reg : Registry) (objname : String) :
    Except String Unit :=
  if objname ∈ reg.names then .ok () else .error "Variable object not found"

/-! ## Deletion (varobj_delete / delete_variable_1) -/

/-- The parent/child shape of a varobj subtree as far as deletion is
concerned: the registered `obj_name` (`none` for an uninstalled temporary,
which `delete_variable_1` neither reports nor counts) and the list of
children in linked-list order. -/
inductive DTree where
  | mk : Option String → List DTree → DTree

def DTree.objName : DTree → Option String
  | .mk n _ => n

def DTree.children : DTree → List DTree
  | .mk _ cs => cs

mutual

/-- Names pushed on the `cpstack` by `delete_variable_1` (varobj.c lines
1481-1527), in push order: each child subtree is deleted first (children
are always deleted in full, `only_children_p = 0` in the recursive call),
then, unless `onlyChildren`, the node's own name is pushed (when it has
one) and the node is uninstalled.  The push order is therefore the order
in which registry entries are removed. -/
def delete_push : DTree → Bool → List String
  | .mk n cs, onlyChildren =>
    if onlyChildren then delete_push_list cs
    else delete_push_list cs ++ n.toList

/-- Pushes produced by the child loop of `delete_variable_1`. -/
def delete_push_list : List DTree → List String
  | [] => []
  | c :: cs => delete_push c false ++ delete_push_list cs

end

/-- The name list returned by `varobj_delete` (varobj.c lines 943-982): the
`cpstack` is drained by repeated `cppop`, so the returned array is the
reverse of the push order. -/
def varobj_delete_list (t : DTree) (onlyChildren : Bool) : List String :=
  (delete_push t onlyChildren).reverse

/-- The count `delcount` returned by `varobj_delete`: `delete_variable_1`
increments it exactly when it pushes a name. -/
def varobj_delete_count (t : DTree) (onlyChildren : Bool) : Nat :=
  (delete_push t onlyChildren).length

/-- Registry contents after `varobj_delete`: `uninstall_variable` removes
the hash-table entry of each deleted name, in deletion (push) order. -/
def registry_after_delete (reg : List String) (t : DTree)
    (onlyChildren : Bool) : List String :=
  (delete_push t onlyChildren).foldl (fun r n => r.erase n) reg

mutual

/-- All registered names in a subtree (root's name first); used to state
what a full deletion must report. -/
def treeNames : DTree → List String
  | .mk n cs => n.toList ++ treeNamesList cs

def treeNamesList : List DTree → List String
  | [] => []
  | c :: cs => treeNames c ++ treeNamesList cs

end

/-- Occurrence relation: `s` is a node of the tree `t`. -/
inductive Subtree : DTree → DTree → Prop
  | refl (t : DTree) : Subtree t t
  | child {s c : DTree} (n : Option String) (cs : List DTree) :
      Subtree s c → c ∈ cs → Subtree s (.mk n cs)

/-- Two-node tree used against C3: the root registered as "p" with one
materialized child registered as "p.c". -/
def c3tree : DTree := .mk (some "p") [.mk (some "p.c") []]

/-! ## Types and the language strategies (C / C++) -/

/-- The `TYPE_CODE` values that matter to varobj.c. -/
inductive TypeCode where
  | tStruct
  | tUnion
  | tArray
  | tPtr
  | tRef
  | tFunc
  | tVoid
  | tMember
  | tMethod
  | tInt
  | tOther
deriving DecidableEq, Repr

/-- Access-level sections (`enum vsections`). -/
inductive Prot where
  | vPublic
  | vPrivate
  | vProtected
deriving DecidableEq, Repr

/-- A field of a struct/union/class type.  `TYPE_FIELD_PROTECTED` and
`TYPE_FIELD_PRIVATE` are independent bits in gdb, kept as two flags. -/
structure CField where
  fname : String
  isProtected : Bool
  isPrivate : Bool
deriving DecidableEq, Repr

/-- A gdb `struct type`, with the attributes varobj.c consults: `TYPE_CODE`,
`TYPE_LENGTH`, `TYPE_TARGET_TYPE`, the field array (`TYPE_NFIELDS` /
`TYPE_FIELD_NAME`, base classes occupying the first `TYPE_N_BASECLASSES`
slots), whether `TYPE_ARRAY_UPPER_BOUND_TYPE` is determinable, and the
virtual-table-pointer field index when `TYPE_VPTR_BASETYPE (t) == t`
(`vptrIdx = some i` models that together with `TYPE_VPTR_FIELDNO == i`).
Typedefs are taken as already resolved, so `check_typedef` is the
identity. -/
inductive CType where
  | mk : TypeCode → Nat → Option CType → List CField → Nat → Bool →
      Option Nat → CType

def CType.code : CType → TypeCode
  | .mk c _ _ _ _ _ _ => c

def CType.tlen : CType → Nat
  | .mk _ l _ _ _ _ _ => l

def CType.target : CType → Option CType
  | .mk _ _ t _ _ _ _ => t

def CType.fields : CType → List CField
  | .mk _ _ _ f _ _ _ => f

def CType.nBase : CType → Nat
  | .mk _ _ _ _ n _ _ => n

def CType.boundKnown : CType → Bool
  | .mk _ _ _ _ _ b _ => b

def CType.vptrIdx : CType → Option Nat
  | .mk _ _ _ _ _ _ v => v

/-- The `varobj-print-object` global `varobj_use_dynamic_type`, default 1. -/
def varobj_use_dynamic_type : Bool := true

/-- A varobj as seen by the language-strategy operations.  The one level of
parent typing that `cplus_make_name_of_child` reads through a fake child's
`parent` pointer is flattened into the `parent*` fields. -/
structure CVar where
  fakeChild : Bool
  vname : String
  vtype : Option CType
  dynamicType : Option CType
  parentVtype : Option CType
  parentDynamicType : Option CType

/-- Model of `get_type` (varobj.c lines 1851-1865): prefer the dynamic type when
`varobj_use_dynamic_type` is set, then resolve typedefs (identity here). -/
def get_type (v : CVar) : Option CType :=
  if varobj_use_dynamic_type && v.dynamicType.isSome then v.dynamicType
  else v.vtype

/-- Pointer/reference stripping step of `get_type_deref`
(varobj.c lines 1871-1889). -/
def deref_type (t : Option CType) : Option CType :=
  match t with
  | some ty => if ty.code = .tPtr ∨ ty.code = .tRef then ty.target else some ty
  | none => none

/-- Model of `get_type_deref (var, ...)`. -/
def get_type_deref (v : CVar) : Option CType :=
  deref_type (get_type v)

/-- Model of `get_type_deref (var->parent, ...)`, through the flattened parent
fields. -/
def get_type_deref_parent (v : CVar) : Option CType :=
  deref_type (if varobj_use_dynamic_type && v.parentDynamicType.isSome
    then v.parentDynamicType else v.parentVtype)

/-- Model of `c_number_of_children` (varobj.c lines 2485-2547).  The two `none`
target fallbacks mark places where the C code would read through a NULL
`struct type *`; they are unreachable for well-formed array/pointer
types. -/
def c_number_of_children (v : CVar) : Int :=
  match get_type v with
  | none => -1
  | some t =>
    match t.code with
    | .tArray =>
      match t.target with
      | some tgt =>
        if 0 < t.tlen ∧ 0 < tgt.tlen ∧ t.boundKnown = true
        then ((t.tlen / tgt.tlen : Nat) : Int)
        else -1
      | none => -1
    | .tStruct => (t.fields.length : Int)
    | .tUnion => (t.fields.length : Int)
    | .tPtr =>
      match t.target with
      | some tgt =>
        match tgt.code with
        | .tStruct => (tgt.fields.length : Int)
        | .tUnion => (tgt.fields.length : Int)
        | .tFunc => 0
        | .tVoid => 0
        | _ => 1
      | none => 1
    | _ => 0

/-- Model of `c_make_name_of_child` (varobj.c lines 2549-2593).  Out-of-range
`TYPE_FIELD_NAME` reads (garbage in C) are `none`; the "???" string is the
C default branch. -/
def c_make_name_of_child (parent : CVar) (index : Nat) : Option String :=
  match get_type parent with
  | none => some "???"
  | some t =>
    match t.code with
    | .tArray => some (toString index)
    | .tStruct => (t.fields[index]?).map CField.fname
    | .tUnion => (t.fields[index]?).map CField.fname
    | .tPtr =>
      match t.target with
      | some tgt =>
        match tgt.code with
        | .tStruct => (tgt.fields[index]?).map CField.fname
        | .tUnion => (tgt.fields[index]?).map CField.fname
        | _ => some ("*" ++ parent.vname)
      | none => some ("*" ++ parent.vname)
    | _ => some "???"

/-- Field classification loop body of `cplus_class_num_children`
(varobj.c lines 3028-3050): walk the non-baseclass fields carrying their
index `i`, skip the virtual-table-pointer field, and classify protected
first, then private, then public.  Returns (public, private, protected)
counts. -/
def classCountsAux : List CField → Nat → Option Nat → Nat × Nat × Nat
  | [], _, _ => (0, 0, 0)
  | f :: fs, i, vptr =>
    let k := classCountsAux fs (i + 1) vptr
    if vptr = some i then k
    else if f.isProtected then (k.1, k.2.1, k.2.2 + 1)
    else if f.isPrivate then (k.1, k.2.1 + 1, k.2.2)
    else (k.1 + 1, k.2.1, k.2.2)

/-- Model of `cplus_class_num_children (type, children[3])`: the loop runs `i` from
`TYPE_N_BASECLASSES` to `TYPE_NFIELDS - 1`. -/
def cplus_class_num_children (t : CType) : Nat × Nat × Nat :=
  classCountsAux (t.fields.drop t.nBase) t.nBase t.vptrIdx

/-- Model of `cplus_number_of_children` (varobj.c lines 2964-3023): a non-fake
struct/union (after dereference) counts one child per non-empty
access-level bucket plus one per base class; a fake child counts the
fields in its bucket; everything else falls back to
`c_number_of_children`.  The fake-child branch with an unavailable parent
type would fault in C; it is 0 here. -/
def cplus_number_of_children (v : CVar) : Int :=
  if ¬ v.fakeChild then
    match get_type_deref v with
    | none => -1
    | some t =>
      if t.code = .tStruct ∨ t.code = .tUnion then
        let k := cplus_class_num_children t
        (((if k.1 ≠ 0 then 1 else 0) + (if k.2.1 ≠ 0 then 1 else 0)
          + (if k.2.2 ≠ 0 then 1 else 0) + t.nBase : Nat) : Int)
      else c_number_of_children v
  else
    match get_type_deref_parent v with
    | some t =>
      let k := cplus_class_num_children t
      if v.vname = "public" then (k.1 : Int)
      else if v.vname = "private" then (k.2.1 : Int)
      else (k.2.2 : Int)
    | none => 0

/-- The field-scanning `while` loops of `cplus_make_name_of_child`
(varobj.c lines 3161-3201) and `cplus_real_type_index_for_fake_child_index`
(lines 3054-3132): find the index of the `n`-th (0-based) field at or after
`TYPE_N_BASECLASSES` with the wanted protection, skipping the vtable
pointer field.  `none` marks the runs-past-the-field-array behaviour of the
C loop. -/
def scanProt : List CField → Nat → Option Nat → Prot → Nat → Option Nat
  | [], _, _, _, _ => none
  | f :: fs, i, vptr, p, n =>
    if vptr = some i then scanProt fs (i + 1) vptr p n
    else
      let matched :=
        match p with
        | .vPrivate => f.isPrivate
        | .vProtected => f.isProtected
        | .vPublic => ¬ f.isPrivate ∧ ¬ f.isProtected
      if matched then
        if n = 0 then some i else scanProt fs (i + 1) vptr p (n - 1)
      else scanProt fs (i + 1) vptr p n

/-- The bucket-name `switch (index)` of `cplus_make_name_of_child`
(varobj.c lines 3219-3247), taking the (public, private, protected) counts
and the index relative to the base classes. -/
def bucket_name_switch (k : Nat × Nat × Nat) : Nat → Option String
  | 0 =>
    if k.1 > 0 then some "public"
    else if k.2.1 > 0 then some "private"
    else some "protected"
  | 1 =>
    if k.1 > 0 then (if k.2.1 > 0 then some "private" else some "protected")
    else if k.2.1 > 0 then some "protected"
    else none
  | 2 => some "protected"
  | _ => none

/-- Model of `cplus_make_name_of_child` (varobj.c lines 3134-3266): under a fake
bucket parent, scan for the index-th field of the bucket's protection; for
a base-class index return that field's name; past the base classes return
the bucket name (NULL, not the C fallback, when the bucket switch finds
nothing); non-struct parents fall back to `c_make_name_of_child`. -/
def cplus_make_name_of_child (parent : CVar) (index : Nat) : Option String :=
  let ptype := if parent.fakeChild then get_type_deref_parent parent
    else get_type_deref parent
  match ptype with
  | some t =>
    if t.code = .tStruct ∨ t.code = .tUnion then
      if parent.fakeChild then
        let p :=
          if parent.vname = "private" then Prot.vPrivate
          else if parent.vname = "protected" then Prot.vProtected
          else Prot.vPublic
        match scanProt (t.fields.drop t.nBase) t.nBase t.vptrIdx p index with
        | some i => (t.fields[i]?).map CField.fname
        | none => none
      else if index < t.nBase then (t.fields[index]?).map CField.fname
      else bucket_name_switch (cplus_class_num_children t) (index - t.nBase)
    else c_make_name_of_child parent index
  | none => c_make_name_of_child parent index

/-- Modelled from the spec's wording of C6 (for comparison with the code):
the non-empty access-level buckets in the fixed order public, private,
protected. -/
def specBucketNames (t : CType) : List String :=
  let k := cplus_class_num_children t
  (if k.1 ≠ 0 then ["public"] else [])
    ++ (if k.2.1 ≠ 0 then ["private"] else [])
    ++ (if k.2.2 ≠ 0 then ["protected"] else [])

/-! ## The update/diff engine (varobj_update, value_of_root)

The varobj tree node carries, besides the cached state the C struct holds
(`obj_name`, `value`, `updated`, `error`, `fake_child`, the `get_type` view
of its static/dynamic type, `children`), the oracle answers the external
calls made for it during one update pass would produce: `childRaw` is what
`lang->value_of_child` returns for it, `dynNew` whether
`varobj_fixup_value` resolves a dynamic type differing from the cached one,
and `fetchOk` the outcome of `gdb_value_fetch_lazy`.  Dynamic-type writes
into the cached type view are not tracked: every claim below inspects the
type only of entries whose tag is `unchanged`, and those paths do not
modify it. -/

/-- The `enum varobj_type_change` values. -/
inductive TypeChange where
  | unchanged
  | typeChanged
  | dynTypeChanged
deriving DecidableEq, Repr

inductive VObj where
  | mk : (objName : String) → (value : Option GValue) → (updated : Bool) →
      (error : Bool) → (fakeChild : Bool) → (ty : Option CType) →
      (childRaw : Option GValue) → (dynNew : Bool) → (fetchOk : Bool) →
      (children : List VObj) → VObj

def VObj.objName : VObj → String
  | .mk n _ _ _ _ _ _ _ _ _ => n

def VObj.value : VObj → Option GValue
  | .mk _ v _ _ _ _ _ _ _ _ => v

def VObj.updated : VObj → Bool
  | .mk _ _ u _ _ _ _ _ _ _ => u

def VObj.error : VObj → Bool
  | .mk _ _ _ e _ _ _ _ _ _ => e

def VObj.fakeChild : VObj → Bool
  | .mk _ _ _ _ f _ _ _ _ _ => f

def VObj.ty : VObj → Option CType
  | .mk _ _ _ _ _ t _ _ _ _ => t

def VObj.childRaw : VObj → Option GValue
  | .mk _ _ _ _ _ _ c _ _ _ => c

def VObj.dynNew : VObj → Bool
  | .mk _ _ _ _ _ _ _ d _ _ => d

def VObj.fetchOk : VObj → Bool
  | .mk _ _ _ _ _ _ _ _ f _ => f

def VObj.children : VObj → List VObj
  | .mk _ _ _ _ _ _ _ _ _ cs => cs

/-- In-place mutation of `value`, `updated`, `error` and `children`, as the
walk of `varobj_update` performs on each node. -/
def VObj.updateState (v : VObj) (val : Option GValue) (upd err : Bool)
    (cs : List VObj) : VObj :=
  match v with
  | .mk n _ _ _ fk ty cr dn fo _ => .mk n val upd err fk ty cr dn fo cs

def VObj.setError (v : VObj) (e : Bool) : VObj :=
  match v with
  | .mk n val upd _ fk ty cr dn fo cs => .mk n val upd e fk ty cr dn fo cs

def VObj.setUpdated (v : VObj) (u : Bool) : VObj :=
  match v with
  | .mk n val _ err fk ty cr dn fo cs => .mk n val u err fk ty cr dn fo cs

def VObj.setValue (v : VObj) (val : Option GValue) : VObj :=
  match v with
  | .mk n _ upd err fk ty cr dn fo cs => .mk n val upd err fk ty cr dn fo cs

def VObj.setChildren (v : VObj) (cs : List VObj) : VObj :=
  match v with
  | .mk n val upd err fk ty cr dn fo _ => .mk n val upd err fk ty cr dn fo cs

def VObj.setObjName (v : VObj) (n : String) : VObj :=
  match v with
  | .mk _ val upd err fk ty cr dn fo cs => .mk n val upd err fk ty cr dn fo cs

/-- Mutation performed by the dynamic-type-changed branch of
`c_value_of_root` (varobj.c lines 2711-2719): record the new dynamic type
view and delete the children (`varobj_delete (var, NULL, 1)`). -/
def VObj.setTyChildren (v : VObj) (ty : Option CType) (cs : List VObj) : VObj :=
  match v with
  | .mk n val upd err fk _ cr dn fo _ => .mk n val upd err fk ty cr dn fo cs

/-- Model of `varobj_value_is_changeable_p` (varobj.c lines 2451-2482): fake
children and objects without a type are unchangeable, as are struct, union
and array types. -/
def varobj_value_is_changeable_p (v : VObj) : Bool :=
  if v.fakeChild then false
  else
    match v.ty with
    | none => false
    | some t =>
      match t.code with
      | .tStruct => false
      | .tUnion => false
      | .tArray => false
      | _ => true

/-- Model of `value_of_child` (varobj.c lines 2362-2417): `*type_changed` starts
`UNCHANGED`; a NULL value from the language strategy is returned before the
dynamic-type fix-up; for non-fake children a differing dynamic type flags
`DYNAMIC_TYPE_CHANGED`; a failing lazy fetch afterwards turns the value
into NULL while keeping the flag. -/
def value_of_child_model (v : VObj) : Option GValue × TypeChange :=
  match v.childRaw with
  | none => (none, .unchanged)
  | some value =>
    let tc := if !v.fakeChild && v.dynNew then TypeChange.dynTypeChanged
      else TypeChange.unchanged
    if value.lazy && !v.fetchOk then (none, tc) else (some value, tc)

/-- The `struct varobj_root` state consulted by update: scope flag, the
re-resolve-every-time flag, the valid block and frame id, the printed name
of `var->type` (what `varobj_type_is_equal_p` compares; `none` models a
NULL static type), and whether `var->root->exp` is non-NULL. -/
structure RootMeta where
  in_scope : Bool
  use_selected_frame : Bool
  valid_block : Option Nat
  frame : Nat
  typeName : Option String
  expOk : Bool

structure RootVar where
  obj : VObj
  meta : RootMeta

/-- Oracle answers of the external calls one `varobj_update` pass makes for
the root.  The `tmp*` fields describe the `varobj_create (NULL, name, 0,
NULL, USE_SELECTED_FRAME)` re-creation attempted for use-selected-frame or
type-less roots: whether the expression parses, whether it is a bare type
name, what `gdb_evaluate_expression` and the `gdb_evaluate_type` fallback
produce, the block the parse binds (`innermost_block`), and the resulting
type (both as a `CType` view and as the printed name compared by
`varobj_type_is_equal_p`).  `frameFind` is `frame_find_by_id` success by
frame id, `pcInBlock` the PC-range check of `varobj_pc_in_valid_block_p`,
`evalRoot` the root re-evaluation, `dynNewRoot`/`dynTyRoot` the fix-up
outcome, `fetchOkRoot` the lazy fetch, `useDynamicType` the
`varobj_use_dynamic_type` global, and `uninit` the garbage initial value of
the uninitialised C local `error2`. -/
structure UpdateEnv where
  tmpParseOk : Bool
  tmpIsTypeExpr : Bool
  tmpEval : Option GValue
  tmpEvalType : Option String
  tmpTypeName : String
  tmpValidBlock : Option Nat
  tmpTy : Option CType
  frameFind : Nat → Bool
  pcInBlock : Bool
  evalRoot : Option GValue
  useDynamicType : Bool
  dynNewRoot : Bool
  dynTyRoot : Option CType
  fetchOkRoot : Bool
  uninit : Bool

/-- Model of `varobj_create (NULL, name, 0, NULL, USE_SELECTED_FRAME)` as invoked
from `value_of_root` (varobj.c lines 650-880 restricted to that call): a
parse failure still yields a varobj (with NULL `exp`, out of scope) because
`use_selected_frame` is set; a bare type name aborts creation; otherwise
evaluation success gives an in-scope object with a type, and on failure
`gdb_evaluate_type` may still provide the type with `in_scope = 0`, else
the expression is discarded.  The `select_frame` done around evaluation
re-selects the already selected frame and is restored, so the selection is
unchanged.  With a NULL object name nothing is installed. -/
def varobj_create_tmp (selected : Nat) (env : UpdateEnv) : Option RootVar :=
  if env.tmpParseOk then
    if env.tmpIsTypeExpr then none
    else
      match env.tmpEval with
      | some val =>
        some { obj := .mk "" (some val) false false false env.tmpTy none false
                 true [],
               meta := { in_scope := true, use_selected_frame := true,
                         valid_block := env.tmpValidBlock, frame := selected,
                         typeName := some env.tmpTypeName, expOk := true } }
      | none =>
        match env.tmpEvalType with
        | some tn =>
          some { obj := .mk "" none false false false env.tmpTy none false
                   true [],
                 meta := { in_scope := false, use_selected_frame := true,
                           valid_block := env.tmpValidBlock, frame := selected,
                           typeName := some tn, expOk := true } }
        | none =>
          some { obj := .mk "" none false false false none none false true [],
                 meta := { in_scope := false, use_selected_frame := true,
                           valid_block := env.tmpValidBlock, frame := selected,
                           typeName := none, expOk := false } }
  else
    some { obj := .mk "" none false false false none none false true [],
           meta := { in_scope := false, use_selected_frame := true,
                     valid_block := none, frame := selected,
                     typeName := none, expOk := false } }

/-- Model of `varobj_type_is_equal_p` (varobj.c lines 2185-2208): false when either
static type is NULL, otherwise comparison of the printed type names. -/
def varobj_type_is_equal_p (oldTn newTn : Option String) : Bool :=
  match oldTn, newTn with
  | some a, some b => a == b
  | _, _ => false

/-- Model of `varobj_pc_in_valid_block_p` (varobj.c lines 2328-2359): a NULL valid
block means global scope, always valid; otherwise the root's frame must be
found and the frame PC must lie inside the block's address range. -/
def varobj_pc_in_valid_block_p (r : RootVar) (env : UpdateEnv) : Bool :=
  match r.meta.valid_block with
  | none => true
  | some _ => env.frameFind r.meta.frame && env.pcInBlock

/-- Result of `value_of_root`-side processing: the (possibly replaced and
mutated) root, the new value or NULL, the `*type_changed` flag, and the
selected frame after the call. -/
structure VorOut where
  root : RootVar
  newVal : Option GValue
  tc : TypeChange
  selected : Nat

/-- Evaluation half of `c_value_of_root` (varobj.c lines 2696-2743),
entered with `within_scope` true and the frame already selected: on
evaluation success run `varobj_fixup_value` — a differing dynamic type sets
`DYNAMIC_TYPE_CHANGED`, deletes the children and re-records the type view —
then fetch a lazy value, setting or clearing `var->error` by the fetch
outcome; on evaluation failure set `var->error` and return NULL. -/
def c_value_of_root_eval (r : RootVar) (tc : TypeChange) (selected : Nat)
    (env : UpdateEnv) : VorOut :=
  match env.evalRoot with
  | some v =>
    let r1 := if env.useDynamicType && env.dynNewRoot then
        { r with obj := r.obj.setTyChildren env.dynTyRoot [] } else r
    let tc1 := if env.useDynamicType && env.dynNewRoot then
        TypeChange.dynTypeChanged else tc
    let r2 := if v.lazy then
        (if env.fetchOkRoot then { r1 with obj := r1.obj.setError false }
         else { r1 with obj := r1.obj.setError true })
      else r1
    { root := r2, newVal := some v, tc := tc1, selected := selected }
  | none =>
    { root := { r with obj := r.obj.setError true }, newVal := none,
      tc := tc, selected := selected }

/-- Model of `c_value_of_root` (varobj.c lines 2668-2746): a NULL valid block is
within scope without switching frames; otherwise the root's frame is looked
up and, when found, selected (`select_frame (fi)`) before evaluating —
the selection is NOT restored here; when the frame is gone the root is out
of scope and NULL is returned. -/
def c_value_of_root (r : RootVar) (tc : TypeChange) (selected : Nat)
    (env : UpdateEnv) : VorOut :=
  match r.meta.valid_block with
  | none => c_value_of_root_eval r tc selected env
  | some _ =>
    if env.frameFind r.meta.frame then
      c_value_of_root_eval r tc r.meta.frame env
    else
      { root := r, newVal := none, tc := tc, selected := selected }

/-- Model of `value_of_root` (varobj.c lines 2226-2322).  For a use-selected-frame
root (or one whose type could not be resolved) the expression is re-created
from scratch: a failed or typeless re-creation returns NULL; equal type
names keep the original root, merging only a differing valid block; unequal
type names discard the original, the temporary takes over its object name,
and `*type_changed = VAROBJ_TYPE_CHANGED`.  Other roots get
`*type_changed = VAROBJ_TYPE_UNCHANGED` and return NULL when the PC left
their valid block.  Either way the language `value_of_root`
(`c_value_of_root`) finishes the job.  On the NULL-returning paths before
that call, `*type_changed` keeps the `VAROBJ_TYPE_CHANGED` value
`varobj_update` initialised it with. -/
def value_of_root (r : RootVar) (selected : Nat) (env : UpdateEnv) : VorOut :=
  if r.meta.use_selected_frame || r.obj.ty.isNone then
    match varobj_create_tmp selected env with
    | none => { root := r, newVal := none, tc := .typeChanged,
                selected := selected }
    | some tmp =>
      if !tmp.meta.expOk || tmp.meta.typeName.isNone then
        { root := r, newVal := none, tc := .typeChanged, selected := selected }
      else
        if varobj_type_is_equal_p tmp.meta.typeName r.meta.typeName then
          let r' := match r.meta.valid_block, tmp.meta.valid_block with
            | some vb, some tb =>
              if vb ≠ tb then
                { r with meta := { r.meta with valid_block := some tb } }
              else r
            | _, _ => r
          c_value_of_root r' .unchanged selected env
        else
          let tmp2 : RootVar :=
            { tmp with obj := tmp.obj.setObjName r.obj.objName }
          c_value_of_root tmp2 .typeChanged selected env
  else
    if varobj_pc_in_valid_block_p r env then
      c_value_of_root r .unchanged selected env
    else
      { root := r, newVal := none, tc := .unchanged, selected := selected }

mutual

/-- Processing of one popped stack node in the update walk (varobj.c lines
1396-1443): re-derive the child's value, emit a change entry when its
dynamic type changed, the root came into scope, or it is changeable and
was assigned to or compares unequal (`my_value_equal` is only called — and
only then overwrites the shared local `error2` — when the earlier disjuncts
and `v->updated` did not short-circuit it); clear `updated` on emission;
store `error2` into `v->error` and install the new value; then either push
the children (type unchanged) or delete them.  Children pushed on the
stack are processed before earlier siblings, which `walkListRev`
reproduces. -/
def walkNode (came : Bool) (e2 : Bool) :
    VObj → VObj × List (VObj × TypeChange) × Nat × Bool
  | .mk n val upd err fk ty cr dn fo cs =>
    let v := VObj.mk n val upd err fk ty cr dn fo cs
    let res := value_of_child_model v
    let callEq := (res.2 == TypeChange.unchanged) && !came
        && varobj_value_is_changeable_p v && !upd
    let eqres := my_value_equal val res.1
    let e2' := if callEq then eqres.2 else e2
    let emit := (res.2 != TypeChange.unchanged) || came
        || (varobj_value_is_changeable_p v && (upd || !eqres.1))
    let upd' := if emit then false else upd
    if res.2 == TypeChange.unchanged then
      let w := walkListRev came e2' cs
      let v' := v.updateState res.1 upd' e2' w.1
      (v', (if emit then [(v', res.2)] else []) ++ w.2.1,
        (if emit then 1 else 0) + w.2.2.1, w.2.2.2)
    else
      let v' := v.updateState res.1 upd' e2' []
      (v', if emit then [(v', res.2)] else [], if emit then 1 else 0, e2')

/-- The stack discipline of the walk: children are pushed in linked-list
order and popped LIFO, so a list of siblings is processed back to front;
each node's subtree is finished before the next sibling.  Returns the
mutated nodes (in their original positions), the emitted entries in
emission order, the number of entries, and the final `error2`. -/
def walkListRev (came : Bool) (e2 : Bool) :
    List VObj → List VObj × List (VObj × TypeChange) × Nat × Bool
  | [] => ([], [], 0, e2)
  | c :: cs =>
    let w1 := walkListRev came e2 cs
    let w2 := walkNode came w1.2.2.2 c
    (w2.1 :: w1.1, w1.2.1 ++ w2.2.1, w1.2.2.1 + w2.2.2.1, w2.2.2.2)

end

/-- Result of one `varobj_update` call: the return code (-3 scope exit,
-2 type changed, else the change count; -1 cases are not modelled since
they need a NULL argument or non-root), the change list (`none` when the
early no-value return leaves `*changelist` unassigned), the root handle
contents afterwards, and the selected frame afterwards. -/
structure UpdateOut where
  ret : Int
  changelist : Option (List (VObj × TypeChange))
  root : RootVar
  selected : Nat

/-- Model of `varobj_update` (varobj.c lines 1294-1456), faithful to the source:
save the selected frame id; call `value_of_root`.  NULL value: set the
error flag, return -3 if the (possibly replaced) root was in scope else 0,
mark it out of scope, and return WITHOUT restoring the frame and without
touching `*changelist`.  Otherwise clear the error flag, note whether the
root just came into scope, mark it in scope; emit a root entry when the
type changed, or else under the same changed test as the walk (with
`error2` — initially the uninitialised `env.uninit` — stored into the
root's error flag when that branch fires); store the new value; walk the
materialized children; then re-select the saved frame when it can still be
found, and return -2 on type change or the change count. -/
def varobj_update (r : RootVar) (selected : Nat) (env : UpdateEnv) :
    UpdateOut :=
  let old_fid := selected
  let vor := value_of_root r selected env
  match vor.newVal with
  | none =>
    { ret := if vor.root.meta.in_scope then -3 else 0,
      changelist := none,
      root := { vor.root with
        obj := vor.root.obj.setError true
        meta := { vor.root.meta with in_scope := false } },
      selected := vor.selected }
  | some newv =>
    let came := !vor.root.meta.in_scope
    let r1 : RootVar := { vor.root with
      obj := vor.root.obj.setError false
      meta := { vor.root.meta with in_scope := true } }
    let eqres := my_value_equal r1.obj.value (some newv)
    let callEq := (vor.tc == TypeChange.unchanged) && !came
        && varobj_value_is_changeable_p r1.obj && !r1.obj.updated
    let e2a := if callEq then eqres.2 else env.uninit
    let plainEmit := came
        || (varobj_value_is_changeable_p r1.obj && (r1.obj.updated || !eqres.1))
    let r2 : RootVar :=
      if vor.tc != TypeChange.unchanged then r1
      else if plainEmit then
        { r1 with obj := (r1.obj.setUpdated false).setError e2a }
      else r1
    let r3 : RootVar := { r2 with obj := r2.obj.setValue (some newv) }
    let w := walkListRev came e2a r3.obj.children
    let r4 : RootVar := { r3 with obj := r3.obj.setChildren w.1 }
    let rootEmitted := (vor.tc != TypeChange.unchanged) || plainEmit
    { ret := if vor.tc != TypeChange.unchanged then -2
        else ((if rootEmitted then 1 else 0) + w.2.2.1 : Nat),
      changelist := some ((if rootEmitted then [(r4.obj, vor.tc)] else [])
        ++ w.2.1),
      root := r4,
      selected := if env.frameFind old_fid then old_fid else vor.selected }

/-! ## Value assignment (varobj_set_value) -/

/-- The external calls `varobj_set_value` can make. -/
inductive ExtCall where
  | parseCall
  | evalCall
  | assignCall
deriving DecidableEq, Repr

/-- The three language strategies. -/
inductive VLang where
  | vC
  | vCplus
  | vJava
deriving DecidableEq, Repr

/-- Model of `c_variable_editable` (varobj.c lines 2890-2908): aggregates, functions
and member/method types are not editable.  (A NULL type would fault in C;
it lands in the editable default here.) -/
def c_variable_editable (v : VObj) : Bool :=
  match v.ty with
  | none => true
  | some t =>
    match t.code with
    | .tStruct => false
    | .tUnion => false
    | .tArray => false
    | .tFunc => false
    | .tMember => false
    | .tMethod => false
    | _ => true

/-- Model of `cplus_variable_editable` (varobj.c lines 3538-3545): fake children are
never editable. -/
def cplus_variable_editable (v : VObj) : Bool :=
  if v.fakeChild then false else c_variable_editable v

/-- The `variable_editable` dispatch; `java_variable_editable` delegates to
the C++ one. -/
def variable_editable (lang : VLang) (v : VObj) : Bool :=
  match lang with
  | .vC => c_variable_editable v
  | .vCplus => cplus_variable_editable v
  | .vJava => cplus_variable_editable v

/-- Oracle answers for one `varobj_set_value` call: whether
`gdb_parse_exp_1` succeeds, what `gdb_evaluate_expression` yields, and what
`gdb_value_assign` yields. -/
structure SetEnv where
  parseOk : Bool
  evalValue : Option GValue
  assignResult : Option GValue

/-- Model of `varobj_set_value` (varobj.c lines 1189-1244): everything happens under
`if (var->value != NULL && variable_editable (var) && !var->error)`;
`ret_val` starts at 1, parse/evaluate/assign failures flip it to 0, a
comparison against the old value may set `updated` before the assignment,
and a successful assignment replaces the stored value.  The returned trace
records which external calls were performed.  The scheduler-lock cleanup
and `input_radix` save/restore have no observable effect here. -/
def varobj_set_value (lang : VLang) (v : VObj) (env : SetEnv) :
    Int × VObj × List ExtCall :=
  if v.value.isSome && variable_editable lang v && !v.error then
    if env.parseOk then
      match env.evalValue with
      | some value =>
        let eqres := my_value_equal v.value (some value)
        let v1 := if !eqres.1 then v.setUpdated true else v
        match env.assignResult with
        | some val =>
          (1, v1.setValue (some val), [.parseCall, .evalCall, .assignCall])
        | none => (0, v1, [.parseCall, .evalCall, .assignCall])
      | none => (0, v, [.parseCall, .evalCall])
    else (0, v, [.parseCall])
  else (1, v, [])

/-! ## Concrete sample inputs for the per-claim witnesses -/

def sampleStructTy : CType := .mk .tStruct 8 none [] 0 true none

def sampleIntTy : CType := .mk .tInt 4 none [] 0 true none

def sampleVal : GValue := ⟨1, false, false⟩

/-- C1 input: a use-selected-frame root currently marked in scope, whose
type name is "T1". -/
def c1root : RootVar :=
  ⟨.mk "var1" none false false false (some sampleStructTy) none false true [],
   ⟨true, true, none, 0, some "T1", true⟩⟩

/-- C1 environment: re-creating the expression parses, evaluation fails
(both at create time and in `c_value_of_root`), the type-only fallback
resolves to "T2" ≠ "T1", so the root is replaced by the fresh out-of-scope
temporary before evaluation fails. -/
def c1env : UpdateEnv :=
  ⟨true, false, none, some "T2", "T2", none, some sampleStructTy,
   fun _ => true, true, none, true, false, none, true, false⟩

/-- C2 witness input: an in-scope root of struct type "S" with one
materialized child. -/
def c2root : RootVar :=
  ⟨.mk "var1" (some sampleVal) false false false (some sampleStructTy) none
     false true
     [.mk "var1.a" (some sampleVal) false false false (some sampleIntTy)
       (some sampleVal) false true []],
   ⟨true, false, none, 0, some "S", true⟩⟩

/-- C2 environment: evaluation succeeds and `varobj_fixup_value` resolves a
different dynamic type, the `VAROBJ_DYNAMIC_TYPE_CHANGED` path. -/
def c2env : UpdateEnv :=
  ⟨true, false, none, none, "", none, none,
   fun _ => true, true, some sampleVal, true, true, some sampleIntTy, true,
   false⟩

/-- C4 witness input: a root of struct type currently out of scope. -/
def c4root : RootVar :=
  ⟨.mk "var1" (some sampleVal) false false false (some sampleStructTy) none
     false true [],
   ⟨false, false, none, 0, some "S", true⟩⟩

/-- C4 environment: evaluation succeeds, no type change, so the root's
coming back into scope is the only reason to report it. -/
def c4env : UpdateEnv :=
  ⟨true, false, none, none, "", none, none,
   fun _ => true, true, some sampleVal, true, false, none, true, false⟩

/-- C9 input: an in-scope root bound to block 3 in frame 7. -/
def c9root : RootVar :=
  ⟨.mk "var1" (some sampleVal) false false false (some sampleIntTy) none
     false true [],
   ⟨true, false, some 3, 7, some "int", true⟩⟩

/-- C9 environment: frame 7 is found (so `c_value_of_root` selects it), the
PC is inside the block, and then evaluation fails. -/
def c9env : UpdateEnv :=
  ⟨true, false, none, none, "", none, none,
   fun n => n == 7, true, none, true, false, none, true, false⟩

/-! ## Theorems -/

theorem bucket_switch_spec (a b c j : Nat)
    (hj : j < ((if a ≠ 0 then ["public"] else [])
      ++ (if b ≠ 0 then ["private"] else [])
      ++ (if c ≠ 0 then ["protected"] else [])).length) :
    bucket_name_switch (a, b, c) j
      = ((if a ≠ 0 then ["public"] else [])
        ++ (if b ≠ 0 then ["private"] else [])
        ++ (if c ≠ 0 then ["protected"] else []))[j]? := by
  by_cases ha : a = 0 <;> by_cases hb : b = 0 <;> by_cases hc : c = 0 <;>
    simp only [ha, hb, hc, ne_eq, not_true_eq_false, not_false_eq_true,
      if_true, if_false, ite_true, ite_false, List.nil_append,
      List.append_nil, List.length_append, List.length_cons,
      List.length_nil, List.singleton_append, List.cons_append] at hj ⊢ <;>
    interval_cases j <;>
    simp [bucket_name_switch, Nat.pos_of_ne_zero, ha, hb, hc]

/-- C7: under the generic/C strategy, `childCount` returns, for an array,
length divided by element size when both lengths are determinable (positive)
and the upper bound is known, else -1; for a struct or union, its field
count; for a pointer to struct or union, the pointee's field count; for a
pointer to function or void, 0; for a pointer to anything else, 1; and for
all other (scalar) types, 0. -/
theorem c7_c_number_of_children (v : CVar) (t : CType)
    (h : get_type v = some t) :
    (∀ tgt, t.code = .tArray → t.target = some tgt →
      ((0 < t.tlen ∧ 0 < tgt.tlen ∧ t.boundKnown = true →
          c_number_of_children v = ((t.tlen / tgt.tlen : Nat) : Int))
        ∧ (¬ (0 < t.tlen ∧ 0 < tgt.tlen ∧ t.boundKnown = true) →
          c_number_of_children v = -1)))
    ∧ (t.code = .tStruct ∨ t.code = .tUnion →
        c_number_of_children v = (t.fields.length : Int))
    ∧ (∀ tgt, t.code = .tPtr → t.target = some tgt →
      ((tgt.code = .tStruct ∨ tgt.code = .tUnion →
          c_number_of_children v = (tgt.fields.length : Int))
        ∧ (tgt.code = .tFunc ∨ tgt.code = .tVoid →
          c_number_of_children v = 0)
        ∧ (tgt.code ≠ .tStruct → tgt.code ≠ .tUnion → tgt.code ≠ .tFunc →
            tgt.code ≠ .tVoid → c_number_of_children v = 1)))
    ∧ (t.code ≠ .tArray → t.code ≠ .tStruct → t.code ≠ .tUnion →
        t.code ≠ .tPtr → c_number_of_children v = 0) := by
  refine ⟨?_, ?_, ?_, ?_⟩
  · intro tgt hc ht
    constructor
    · intro hcond
      simp [c_number_of_children, h, hc, ht, hcond]
    · intro hcond
      simp only [c_number_of_children, h, hc, ht]
      rw [if_neg hcond]
  · rintro (hc | hc) <;> simp [c_number_of_children, h, hc]
  · intro tgt hc ht
    refine ⟨?_, ?_, ?_⟩
    · rintro (hs | hs) <;> simp [c_number_of_children, h, hc, ht, hs]
    · rintro (hs | hs) <;> simp [c_number_of_children, h, hc, ht, hs]
    · intro h1 h2 h3 h4
      simp only [c_number_of_children, h, hc, ht]
  · intro h1 h2 h3 h4
    simp only [c_number_of_children, h]

/-- Witness for `c7_c_number_of_children`: an `int[3]` — element size 4,
total length 12, bound determinable — has 3 children. -/
theorem c7_c_number_of_children_witness :
    c_number_of_children
      ⟨false, "a", some (.mk .tArray 12 (some (.mk .tInt 4 none [] 0 true none))
        [] 0 true none), none, none, none⟩ = 3 := by
  have h := (c7_c_number_of_children
    ⟨false, "a", some (.mk .tArray 12 (some (.mk .tInt 4 none [] 0 true none))
      [] 0 true none), none, none, none⟩
    (.mk .tArray 12 (some (.mk .tInt 4 none [] 0 true none)) [] 0 true none)
    rfl).1 (.mk .tInt 4 none [] 0 true none) rfl rfl
  simpa using h.1 (by constructor <;> simp [CType.tlen, CType.boundKnown])

/-- C6: for every non-fake C++ variable object whose dereferenced type is a
struct or union, `childCount` equals the number of direct base classes plus
the number of non-empty access-level buckets (virtual-table-pointer field
excluded from every bucket, inside `cplus_class_num_children`), and
`childName` maps each index below `baseClassCount` to that base class's
field name, followed by the non-empty bucket names in the fixed order
public, private, protected, skipping empty buckets. -/
theorem c6_cplus_children (v : CVar) (t : CType)
    (hfake : v.fakeChild = false)
    (hderef : get_type_deref v = some t)
    (hcode : t.code = .tStruct ∨ t.code = .tUnion)
    (hnb : t.nBase ≤ t.fields.length) :
    cplus_number_of_children v
      = ((t.nBase + (specBucketNames t).length : Nat) : Int)
    ∧ (∀ i, i < t.nBase → ∃ f, t.fields[i]? = some f
        ∧ cplus_make_name_of_child v i = some f.fname)
    ∧ (∀ k, k < (specBucketNames t).length →
        cplus_make_name_of_child v (t.nBase + k) = (specBucketNames t)[k]?) := by
  refine ⟨?_, ?_, ?_⟩
  · simp only [cplus_number_of_children, hfake, Bool.false_eq_true,
      not_false_eq_true, if_true, hderef, if_pos hcode]
    norm_cast
    by_cases h1 : (cplus_class_num_children t).1 = 0 <;>
      by_cases h2 : (cplus_class_num_children t).2.1 = 0 <;>
      by_cases h3 : (cplus_class_num_children t).2.2 = 0 <;>
      simp [specBucketNames, h1, h2, h3] <;> omega
  · intro i hi
    have hlt : i < t.fields.length := lt_of_lt_of_le hi hnb
    refine ⟨t.fields[i], by simp, ?_⟩
    simp only [cplus_make_name_of_child, hfake, Bool.false_eq_true,
      if_false, ite_false, hderef, if_pos hcode, if_pos hi]
    simp [List.getElem?_eq_getElem hlt]
  · intro k hk
    have hge : ¬ (t.nBase + k < t.nBase) := by omega
    simp only [cplus_make_name_of_child, hfake, Bool.false_eq_true,
      if_false, ite_false, hderef, if_pos hcode, if_neg hge,
      Nat.add_sub_cancel_left]
    have := bucket_switch_spec (cplus_class_num_children t).1
      (cplus_class_num_children t).2.1 (cplus_class_num_children t).2.2 k
      (by simpa [specBucketNames] using hk)
    simpa [specBucketNames] using this

/-- Witness for `c6_cplus_children`: a class with one base class `Base`
(field 0), a public int `n` and a private int `m`: 3 children (1 base + 2
non-empty buckets), child 0 named "Base", children 1 and 2 named "public"
and "private". -/
theorem c6_cplus_children_witness :
    cplus_number_of_children
      ⟨false, "x", some (.mk .tStruct 8 none
        [⟨"Base", false, false⟩, ⟨"n", false, false⟩, ⟨"m", false, true⟩]
        1 true none), none, none, none⟩ = 3
    ∧ cplus_make_name_of_child
      ⟨false, "x", some (.mk .tStruct 8 none
        [⟨"Base", false, false⟩, ⟨"n", false, false⟩, ⟨"m", false, true⟩]
        1 true none), none, none, none⟩ 1 = some "public" := by
  have h := c6_cplus_children
    ⟨false, "x", some (.mk .tStruct 8 none
      [⟨"Base", false, false⟩, ⟨"n", false, false⟩, ⟨"m", false, true⟩]
      1 true none), none, none, none⟩
    (.mk .tStruct 8 none
      [⟨"Base", false, false⟩, ⟨"n", false, false⟩, ⟨"m", false, true⟩]
      1 true none)
    rfl rfl (Or.inl rfl) (by simp [CType.nBase, CType.fields])
  constructor
  · rw [h.1]
    decide
  · have h3 := h.2.2 0 (by decide)
    simpa using h3

/-- C8, counterexample: the claim says the out-parameter reports whether
the new value errored, but when the old value is NULL `my_value_equal`
returns before the self-comparison of the new value, leaving
`*error2 = 0` even though the new value errors. -/
theorem c8_counterexample :
    (GValue.mk 0 true false).err = true
    ∧ my_value_equal none (some (GValue.mk 0 true false)) = (false, false) :=
  ⟨rfl, rfl⟩

/-- C8, amended: the safe equality check is a total function (it never
propagates an evaluation error); two NULL values are equal; exactly one
NULL value is unequal (with the out-parameter left 0 in both NULL cases,
even when the non-NULL new value errors); two non-NULL values that both
error compare as unchanged; a pair of non-NULL values where exactly one
operand errors compares as changed; and for two non-NULL operands the
out-parameter reports whether the new value errored. -/
theorem c8_safe_equal_amended (v1 v2 : Option GValue) :
    (v1 = none → v2 = none → my_value_equal v1 v2 = (true, false))
    ∧ (v1 = none → v2 ≠ none → my_value_equal v1 v2 = (false, false))
    ∧ (v1 ≠ none → v2 = none → my_value_equal v1 v2 = (false, false))
    ∧ (∀ a b, v1 = some a → v2 = some b → a.err = true → b.err = true →
        (my_value_equal v1 v2).1 = true)
    ∧ (∀ a b, v1 = some a → v2 = some b → a.err ≠ b.err →
        (my_value_equal v1 v2).1 = false)
    ∧ (∀ a b, v1 = some a → v2 = some b →
        (my_value_equal v1 v2).2 = b.err) := by
  cases v1 with
  | none => cases v2 <;> simp [my_value_equal]
  | some a =>
    cases v2 with
    | none => simp [my_value_equal]
    | some b =>
      refine ⟨by simp, by simp, by simp, ?_, ?_, ?_⟩
      · rintro a' b' ha hb hea heb
        cases ha
        cases hb
        simp [my_value_equal, gdb_value_equal, hea, heb]
      · rintro a' b' ha hb hne
        cases ha
        cases hb
        cases hea : a.err <;> cases heb : b.err <;>
          simp_all [my_value_equal, gdb_value_equal]
      · rintro a' b' ha hb
        cases ha
        cases hb
        cases hea : a.err <;> cases heb : b.err <;>
          simp [my_value_equal, gdb_value_equal, hea, heb]

/-- Witness for `c8_safe_equal_amended`: an erroring old value against a
readable new value is reported as changed, with no error on the new
side. -/
theorem c8_safe_equal_amended_witness :
    (my_value_equal (some (GValue.mk 0 true false))
      (some (GValue.mk 1 false false))).1 = false
    ∧ (my_value_equal (some (GValue.mk 0 true false))
      (some (GValue.mk 1 false false))).2 = false :=
  ⟨(c8_safe_equal_amended (some (GValue.mk 0 true false))
      (some (GValue.mk 1 false false))).2.2.2.2.1
      (GValue.mk 0 true false) (GValue.mk 1 false false) rfl rfl (by decide),
   (c8_safe_equal_amended (some (GValue.mk 0 true false))
      (some (GValue.mk 1 false false))).2.2.2.2.2
      (GValue.mk 0 true false) (GValue.mk 1 false false) rfl rfl⟩

/-- C10: whenever the guard of `varobj_set_value` fails — the object has no
current value, or is not editable under its language strategy, or has its
error flag set — the function performs no parse, no evaluation and no
assignment (empty call trace), leaves the object untouched, and still
returns the success result 1. -/
theorem c10_set_value_noop (lang : VLang) (v : VObj) (env : SetEnv)
    (h : v.value = none ∨ variable_editable lang v = false ∨ v.error = true) :
    varobj_set_value lang v env = (1, v, []) := by
  rcases h with h | h | h <;> simp [varobj_set_value, h]

/-- Witness for `c10_set_value_noop`: a struct-typed (hence not editable)
object with a value is left alone and reported as success. -/
theorem c10_set_value_noop_witness :
    varobj_set_value .vC
      (.mk "var1" (some sampleVal) false false false (some sampleStructTy)
        none false true [])
      ⟨true, some sampleVal, some sampleVal⟩
    = (1, .mk "var1" (some sampleVal) false false false (some sampleStructTy)
        none false true [], []) :=
  c10_set_value_noop .vC
    (.mk "var1" (some sampleVal) false false false (some sampleStructTy)
      none false true [])
    ⟨true, some sampleVal, some sampleVal⟩ (Or.inr (Or.inl rfl))

/-- C9 is a code bug: `varobj_update` saves the selected frame id and
restores it at the end of the normal path (varobj.c lines 1317-1319 and
1445-1448), but the early return taken when `value_of_root` yields no value
(lines 1326-1336) skips the restore.  At this concrete input the root is
bound to block 3 of frame 7, `c_value_of_root` finds frame 7 and selects it
(line 2693), evaluation then fails, and update returns the scope-exit code
-3 with frame 7 still selected instead of the caller's frame 5. -/
theorem c9_frame_not_restored :
    (varobj_update c9root 5 c9env).ret = -3
    ∧ (varobj_update c9root 5 c9env).selected = 7
    ∧ (7 : Nat) ≠ 5 :=
  ⟨rfl, rfl, by decide⟩

theorem c_value_of_root_eval_in_scope (r : RootVar) (tc : TypeChange)
    (sel : Nat) (env : UpdateEnv) :
    (c_value_of_root_eval r tc sel env).root.meta.in_scope
      = r.meta.in_scope := by
  unfold c_value_of_root_eval
  cases hev : env.evalRoot
  · simp only [hev]
  · simp only [hev]
    split_ifs <;> rfl

theorem c_value_of_root_in_scope (r : RootVar) (tc : TypeChange) (sel : Nat)
    (env : UpdateEnv) :
    (c_value_of_root r tc sel env).root.meta.in_scope = r.meta.in_scope := by
  unfold c_value_of_root
  cases hvb : r.meta.valid_block <;>
    simp only [hvb, c_value_of_root_eval_in_scope]
  split_ifs <;> simp [c_value_of_root_eval_in_scope]

theorem value_of_root_in_scope_normal (r : RootVar) (sel : Nat)
    (env : UpdateEnv) (husf : r.meta.use_selected_frame = false)
    (hty : r.obj.ty.isSome = true) :
    (value_of_root r sel env).root.meta.in_scope = r.meta.in_scope := by
  have hn : r.obj.ty.isNone = false := by
    cases hx : r.obj.ty <;> simp_all
  unfold value_of_root
  simp only [husf, hn, Bool.or_self, Bool.false_or, Bool.false_eq_true,
    if_false, ite_false]
  cases hpc : varobj_pc_in_valid_block_p r env <;>
    simp [hpc, c_value_of_root_in_scope]

/-- C1, counterexample: the claim ties the -3/0 choice to whether THE root
was in scope BEFORE the call, but the code reads `(*varp)->root->in_scope`
after `value_of_root`, which on the use-selected-frame re-parse path may
have replaced the root object.  Here the original root is in scope, the
re-created temporary (same expression, evaluation fails, type-only
fallback yields the differing type name "T2") takes its place out of
scope, evaluation then fails, and update returns 0 — the zero-changes
result — where the claim requires the scope-exit result -3. -/
theorem c1_counterexample :
    c1root.meta.in_scope = true
    ∧ (value_of_root c1root 5 c1env).newVal = none
    ∧ (varobj_update c1root 5 c1env).ret = 0
    ∧ (0 : Int) ≠ -3 :=
  ⟨rfl, rfl, rfl, by decide⟩

/-- C1, amended: if re-evaluation during update yields no value, update
returns the scope-exit result -3 exactly when the root object CURRENT
AFTER RE-RESOLUTION (re-resolution may have replaced the original on the
use-selected-frame re-parse path) was marked in scope, and the
zero-changes result 0 otherwise; it marks that root out of scope in both
cases and leaves `*changelist` unassigned (no change entries).  For a root
that is not re-resolved from scratch (not use-selected-frame, type known)
the in-scope flag consulted is unchanged from before the call, giving the
claim's original reading. -/
theorem c1_update_no_value_amended (r : RootVar) (selected : Nat)
    (env : UpdateEnv)
    (h : (value_of_root r selected env).newVal = none) :
    ((varobj_update r selected env).ret
      = if (value_of_root r selected env).root.meta.in_scope then -3 else 0)
    ∧ (varobj_update r selected env).root.meta.in_scope = false
    ∧ (varobj_update r selected env).changelist = none
    ∧ (r.meta.use_selected_frame = false → r.obj.ty.isSome = true →
        (value_of_root r selected env).root.meta.in_scope
          = r.meta.in_scope) := by
  refine ⟨?_, ?_, ?_,
    fun husf hty => value_of_root_in_scope_normal r selected env husf hty⟩ <;>
    simp only [varobj_update, h]

/-- Witness for `c1_update_no_value_amended` at the concrete C1 input. -/
theorem c1_update_no_value_amended_witness :
    (varobj_update c1root 5 c1env).changelist = none
    ∧ (varobj_update c1root 5 c1env).root.meta.in_scope = false :=
  ⟨(c1_update_no_value_amended c1root 5 c1env rfl).2.2.1,
   (c1_update_no_value_amended c1root 5 c1env rfl).2.1⟩

theorem VObj.children_setError (v : VObj) (b : Bool) :
    (v.setError b).children = v.children := by
  cases v
  rfl

theorem VObj.children_setUpdated (v : VObj) (b : Bool) :
    (v.setUpdated b).children = v.children := by
  cases v
  rfl

theorem VObj.children_setValue (v : VObj) (val : Option GValue) :
    (v.setValue val).children = v.children := by
  cases v
  rfl

theorem VObj.children_setTyChildren (v : VObj) (ty : Option CType)
    (cs : List VObj) : (v.setTyChildren ty cs).children = cs := by
  cases v
  rfl

theorem VObj.children_setChildren (v : VObj) (cs : List VObj) :
    (v.setChildren cs).children = cs := by
  cases v
  rfl

theorem VObj.objName_setError (v : VObj) (b : Bool) :
    (v.setError b).objName = v.objName := by
  cases v
  rfl

theorem VObj.objName_setUpdated (v : VObj) (b : Bool) :
    (v.setUpdated b).objName = v.objName := by
  cases v
  rfl

theorem VObj.objName_setValue (v : VObj) (val : Option GValue) :
    (v.setValue val).objName = v.objName := by
  cases v
  rfl

theorem VObj.objName_setChildren (v : VObj) (cs : List VObj) :
    (v.setChildren cs).objName = v.objName := by
  cases v
  rfl

theorem varobj_create_tmp_children (sel : Nat) (env : UpdateEnv)
    (t : RootVar) (h : varobj_create_tmp sel env = some t) :
    t.obj.children = [] := by
  unfold varobj_create_tmp at h
  by_cases hp : env.tmpParseOk <;> simp only [hp, if_true, if_false,
    Bool.false_eq_true, ite_true, ite_false] at h
  · by_cases ht : env.tmpIsTypeExpr <;> simp only [ht, if_true, if_false,
      Bool.false_eq_true, ite_true, ite_false] at h
    · cases h
    · cases hev : env.tmpEval <;> simp only [hev] at h
      · cases hty : env.tmpEvalType <;> simp only [hty] at h <;>
          (cases h; rfl)
      · cases h
        rfl
  · cases h
    rfl

theorem c_value_of_root_children (r : RootVar) (tc : TypeChange) (sel : Nat)
    (env : UpdateEnv) (hv : (c_value_of_root r tc sel env).newVal ≠ none) :
    ((c_value_of_root r tc sel env).root.obj.children = r.obj.children
      ∧ (c_value_of_root r tc sel env).tc = tc)
    ∨ (c_value_of_root r tc sel env).root.obj.children = [] := by
  have heval : ∀ sel2,
      ((c_value_of_root_eval r tc sel2 env).root.obj.children
          = r.obj.children
        ∧ (c_value_of_root_eval r tc sel2 env).tc = tc)
      ∨ (c_value_of_root_eval r tc sel2 env).root.obj.children = [] := by
    intro sel2
    unfold c_value_of_root_eval
    cases hev : env.evalRoot <;> simp only [hev]
    · left
      exact ⟨VObj.children_setError r.obj true, trivial⟩
    · by_cases hdy : (env.useDynamicType && env.dynNewRoot) = true
      · right
        simp only [hdy, if_true, ite_true]
        split_ifs <;>
          simp [VObj.children_setError, VObj.children_setTyChildren]
      · left
        simp only [hdy, if_false, Bool.false_eq_true, ite_false]
        constructor
        · split_ifs <;> simp [VObj.children_setError]
        · trivial
  unfold c_value_of_root at hv ⊢
  cases hvb : r.meta.valid_block <;> simp only [hvb] at hv ⊢
  · exact heval sel
  · by_cases hf : env.frameFind r.meta.frame = true <;>
      simp only [hf, if_true, if_false, Bool.false_eq_true, ite_true,
        ite_false] at hv ⊢
    · exact heval r.meta.frame
    · simp at hv

theorem value_of_root_children_empty (r : RootVar) (sel : Nat)
    (env : UpdateEnv) (hv : (value_of_root r sel env).newVal ≠ none)
    (htc : (value_of_root r sel env).tc ≠ .unchanged) :
    (value_of_root r sel env).root.obj.children = [] := by
  unfold value_of_root at hv htc ⊢
  by_cases hg : (r.meta.use_selected_frame || r.obj.ty.isNone) = true <;>
    simp only [hg, if_true, if_false, Bool.false_eq_true, ite_true,
      ite_false] at hv htc ⊢
  · cases hct : varobj_create_tmp sel env with
    | none => simp [hct] at hv
    | some tmp =>
      simp only [hct] at hv htc ⊢
      by_cases hok : (!tmp.meta.expOk || tmp.meta.typeName.isNone) = true <;>
        simp only [hok, if_true, if_false, Bool.false_eq_true, ite_true,
          ite_false] at hv htc ⊢
      · simp at hv
      · by_cases heq : varobj_type_is_equal_p tmp.meta.typeName
            r.meta.typeName = true <;>
          simp only [heq, if_true, if_false, Bool.false_eq_true, ite_true,
            ite_false] at hv htc ⊢
        · rcases c_value_of_root_children _ _ _ _ hv with ⟨_, h2⟩ | h
          · exact absurd h2 htc
          · exact h
        · rcases c_value_of_root_children
              ⟨tmp.obj.setObjName r.obj.objName, tmp.meta⟩ .typeChanged sel
              env hv with ⟨h1, _⟩ | h
          · rw [h1]
            have : (tmp.obj.setObjName r.obj.objName).children
                = tmp.obj.children := by
              cases hobj : tmp.obj
              rfl
            rw [this]
            exact varobj_create_tmp_children sel env tmp hct
          · exact h
  · by_cases hpc : varobj_pc_in_valid_block_p r env = true <;>
      simp only [hpc, if_true, if_false, Bool.false_eq_true, ite_true,
        ite_false] at hv htc ⊢
    · rcases c_value_of_root_children _ _ _ _ hv with ⟨_, h2⟩ | h
      · exact absurd h2 htc
      · exact h
    · simp at hv

/-- C2: whenever update obtains a value and the root's type changed
(`value_of_root` reports a non-`UNCHANGED` type change — either the
re-parse replaced the root by a fresh childless one, or the
dynamic-type-changed branch of `c_value_of_root` deleted the children),
update returns the distinct type-changed result -2 rather than a change
count, and the change list holds exactly one entry: the root itself,
tagged with that type change.  The root's materialized child subtree is
gone. -/
theorem c2_update_type_changed (r : RootVar) (selected : Nat)
    (env : UpdateEnv)
    (hv : (value_of_root r selected env).newVal ≠ none)
    (htc : (value_of_root r selected env).tc ≠ .unchanged) :
    (varobj_update r selected env).ret = -2
    ∧ (varobj_update r selected env).changelist
        = some [((varobj_update r selected env).root.obj,
            (value_of_root r selected env).tc)]
    ∧ (varobj_update r selected env).root.obj.children = [] := by
  rcases hvv : (value_of_root r selected env).newVal with _ | newv
  · exact absurd hvv hv
  · have hch := value_of_root_children_empty r selected env hv htc
    have htcb : ((value_of_root r selected env).tc
        != TypeChange.unchanged) = true := by
      cases htcc : (value_of_root r selected env).tc <;> simp_all
    refine ⟨?_, ?_, ?_⟩ <;>
      simp only [varobj_update, hvv, htcb, if_true, ite_true, Bool.true_or,
        VObj.children_setValue, VObj.children_setError, hch, walkListRev,
        VObj.children_setChildren, List.append_nil]

/-- Witness for `c2_update_type_changed`: an in-scope struct root with one
materialized child whose re-evaluation succeeds but resolves a different
dynamic type: one type-changed entry, return -2, children gone. -/
theorem c2_update_type_changed_witness :
    (varobj_update c2root 0 c2env).ret = -2
    ∧ (varobj_update c2root 0 c2env).root.obj.children = [] :=
  ⟨(c2_update_type_changed c2root 0 c2env (by decide) (by decide)).1,
   (c2_update_type_changed c2root 0 c2env (by decide) (by decide)).2.2⟩

theorem changeable_updateState (v : VObj) (val : Option GValue)
    (upd err : Bool) (cs : List VObj) :
    varobj_value_is_changeable_p (v.updateState val upd err cs)
      = varobj_value_is_changeable_p v := by
  cases v
  rfl

theorem changeable_setError (v : VObj) (b : Bool) :
    varobj_value_is_changeable_p (v.setError b)
      = varobj_value_is_changeable_p v := by
  cases v
  rfl

theorem changeable_setUpdated (v : VObj) (b : Bool) :
    varobj_value_is_changeable_p (v.setUpdated b)
      = varobj_value_is_changeable_p v := by
  cases v
  rfl

theorem changeable_setValue (v : VObj) (val : Option GValue) :
    varobj_value_is_changeable_p (v.setValue val)
      = varobj_value_is_changeable_p v := by
  cases v
  rfl

theorem changeable_setChildren (v : VObj) (cs : List VObj) :
    varobj_value_is_changeable_p (v.setChildren cs)
      = varobj_value_is_changeable_p v := by
  cases v
  rfl

mutual

theorem walkNode_nonchangeable :
    ∀ (came e2 : Bool) (u v : VObj) (tcv : TypeChange),
      (v, tcv) ∈ (walkNode came e2 u).2.1 → tcv = TypeChange.unchanged →
      varobj_value_is_changeable_p v = false → came = true
  | came, e2, .mk n val upd err fk ty cr dn fo cs, v, tcv, hmem, htc, hch => by
    simp only [walkNode] at hmem
    by_cases hres : ((value_of_child_model
        (VObj.mk n val upd err fk ty cr dn fo cs)).2
          == TypeChange.unchanged) = true
    · rw [if_pos hres] at hmem
      rcases List.mem_append.mp hmem with h | h
      · by_cases hemit : (((value_of_child_model
            (VObj.mk n val upd err fk ty cr dn fo cs)).2
              != TypeChange.unchanged) || came
            || (varobj_value_is_changeable_p
                (VObj.mk n val upd err fk ty cr dn fo cs)
              && (upd || !(my_value_equal val (value_of_child_model
                (VObj.mk n val upd err fk ty cr dn fo cs)).1).1))) = true
        · rw [if_pos hemit] at h
          rw [List.mem_singleton, Prod.mk.injEq] at h
          obtain ⟨hv', htcv⟩ := h
          have hch2 : varobj_value_is_changeable_p
              (VObj.mk n val upd err fk ty cr dn fo cs) = false := by
            rw [hv', changeable_updateState] at hch
            exact hch
          have hne : ((value_of_child_model
              (VObj.mk n val upd err fk ty cr dn fo cs)).2
                != TypeChange.unchanged) = false := by
            simp only [bne, hres, Bool.not_true]
          rw [hne, hch2] at hemit
          simpa using hemit
        · rw [if_neg hemit] at h
          simp at h
      · exact walkListRev_nonchangeable came _ cs v tcv h htc hch
    · rw [if_neg hres] at hmem
      by_cases hemit : (((value_of_child_model
          (VObj.mk n val upd err fk ty cr dn fo cs)).2
            != TypeChange.unchanged) || came
          || (varobj_value_is_changeable_p
              (VObj.mk n val upd err fk ty cr dn fo cs)
            && (upd || !(my_value_equal val (value_of_child_model
              (VObj.mk n val upd err fk ty cr dn fo cs)).1).1))) = true
      · simp only [if_pos hemit, List.mem_singleton] at hmem
        have htcv : tcv = (value_of_child_model
            (VObj.mk n val upd err fk ty cr dn fo cs)).2 :=
          congrArg Prod.snd hmem
        rw [htc] at htcv
        exact absurd htcv.symm (by simpa using hres)
      · simp only [if_neg hemit] at hmem
        simp at hmem

theorem walkListRev_nonchangeable :
    ∀ (came e2 : Bool) (l : List VObj) (v : VObj) (tcv : TypeChange),
      (v, tcv) ∈ (walkListRev came e2 l).2.1 → tcv = TypeChange.unchanged →
      varobj_value_is_changeable_p v = false → came = true
  | _, e2, [], v, tcv, hmem, _, _ => by simp [walkListRev] at hmem
  | came, e2, c :: cs, v, tcv, hmem, htc, hch => by
    simp only [walkListRev] at hmem
    rcases List.mem_append.mp hmem with h | h
    · exact walkListRev_nonchangeable came e2 cs v tcv h htc hch
    · exact walkNode_nonchangeable came _ c v tcv h htc hch

end

/-- C4: for every variable object of struct, union or array type, update
never emits a plain "changed" entry (tag `VAROBJ_TYPE_UNCHANGED`) for it
from value inequality alone, or even from the `updated` flag:
`varobj_value_is_changeable_p` gates the whole value test, so such an
entry can arise only from a scope transition — the root must have been out
of scope when `value_of_root` obtained the new value (`came_in_scope`).
Type changes are reported under their own tags. -/
theorem c4_composite_not_value_changed (r : RootVar) (selected : Nat)
    (env : UpdateEnv) (cl : List (VObj × TypeChange)) (v : VObj) (t : CType)
    (hcl : (varobj_update r selected env).changelist = some cl)
    (hmem : (v, TypeChange.unchanged) ∈ cl)
    (ht : v.ty = some t)
    (hcode : t.code = .tStruct ∨ t.code = .tUnion ∨ t.code = .tArray) :
    (value_of_root r selected env).root.meta.in_scope = false := by
  have hch : varobj_value_is_changeable_p v = false := by
    rcases hcode with h | h | h <;> by_cases hf : v.fakeChild = true <;>
      simp [varobj_value_is_changeable_p, hf, ht, h]
  rcases hvv : (value_of_root r selected env).newVal with _ | newv
  · simp only [varobj_update, hvv] at hcl
    exact Option.noConfusion hcl
  · simp only [varobj_update, hvv] at hcl
    have hclE : cl = _ := (Option.some.inj hcl).symm
    subst hclE
    rcases List.mem_append.mp hmem with h | h
    · by_cases hre : (((value_of_root r selected env).tc
          != TypeChange.unchanged)
          || (!(value_of_root r selected env).root.meta.in_scope
            || (varobj_value_is_changeable_p
                ((value_of_root r selected env).root.obj.setError false)
              && (((value_of_root r selected env).root.obj.setError
                    false).updated
                || !(my_value_equal ((value_of_root
                    r selected env).root.obj.setError false).value
                  (some newv)).1)))) = true
      · simp only [if_pos hre, List.mem_singleton] at h
        have htcv : TypeChange.unchanged = (value_of_root r selected env).tc :=
          congrArg Prod.snd h
        have hv' : v = _ := congrArg Prod.fst h
        rw [hv'] at hch
        simp only [changeable_setChildren, changeable_setValue,
          apply_ite RootVar.obj, apply_ite varobj_value_is_changeable_p,
          changeable_setError, changeable_setUpdated, ite_self] at hch
        rw [← htcv] at hre
        simp only [bne_self_eq_false, Bool.false_or, changeable_setError,
          hch, Bool.false_and, Bool.and_false, Bool.or_false] at hre
        simpa using hre
      · simp only [if_neg hre] at h
        simp at h
    · have hcame := walkListRev_nonchangeable _ _ _ _ _ h rfl hch
      simpa using hcame

/-- Witness for `c4_composite_not_value_changed`: a struct-typed root that
was out of scope and re-enters scope produces exactly a plain changed
entry; the theorem instantiated there confirms the scope transition. -/
theorem c4_composite_not_value_changed_witness :
    (value_of_root c4root 0 c4env).root.meta.in_scope = false :=
  c4_composite_not_value_changed c4root 0 c4env
    [(.mk "var1" (some sampleVal) false false false (some sampleStructTy)
        none false true [], .unchanged)]
    (.mk "var1" (some sampleVal) false false false (some sampleStructTy)
      none false true [])
    sampleStructTy rfl (List.mem_singleton.mpr rfl) rfl (Or.inl rfl)

/-- C5: for every pair of create requests with the same explicit object
name, the second creation fails (in `install_variable` the bucket-chain
scan finds the first object's entry and raises
"Duplicate variable object name" before inserting anything; `varobj_create`
then discards the half-built object), so nothing is installed and the
registry — its name entries and its root count — is exactly what it was
after the first creation. -/
theorem c5_duplicate_create (reg reg1 : Registry) (b1 b2 : Bool) (n : String)
    (h : varobj_create_install reg b1 (some n) = (some n, reg1)) :
    varobj_create_install reg1 b2 (some n) = (none, reg1) := by
  have hmem : n ∈ reg1.names := by
    by_cases hb : b1
    · by_cases hm : n ∈ reg.names
      · simp [varobj_create_install, hb, install_variable, hm] at h
      · simp only [varobj_create_install, hb, install_variable, hm,
          if_true, if_false, ite_false] at h
        cases h
        simp
    · simp [varobj_create_install, hb] at h
  by_cases hb2 : b2
  · simp [varobj_create_install, hb2, install_variable, hmem]
  · simp [varobj_create_install, hb2]

/-- Witness for `c5_duplicate_create`: installing "var1" into an empty
registry and then creating "var1" again fails and leaves the one-entry
registry with `rootcount = 1` unchanged. -/
theorem c5_duplicate_create_witness :
    varobj_create_install ⟨["var1"], 1⟩ true (some "var1")
      = (none, (⟨["var1"], 1⟩ : Registry)) :=
  c5_duplicate_create ⟨[], 0⟩ ⟨["var1"], 1⟩ true true "var1" (by decide)

theorem delete_push_list_split_of_mem {c : DTree} :
    ∀ {cs : List DTree}, c ∈ cs →
      ∃ u w, delete_push_list cs = u ++ delete_push c false ++ w := by
  intro cs hmem
  induction cs with
  | nil => cases hmem
  | cons d ds ih =>
    rcases List.mem_cons.mp hmem with h | h
    · exact ⟨[], delete_push_list ds, by simp [delete_push_list, h]⟩
    · rcases ih h with ⟨u, w, hw⟩
      exact ⟨delete_push d false ++ u, w, by simp [delete_push_list, hw]⟩

theorem delete_push_split_of_subtree {s t : DTree} (h : Subtree s t) :
    ∃ u w, delete_push t false = u ++ delete_push s false ++ w := by
  induction h with
  | refl => exact ⟨[], [], by simp⟩
  | child n cs hsub hmem ih =>
    rcases ih with ⟨u, w, hw⟩
    rcases delete_push_list_split_of_mem hmem with ⟨u2, w2, hw2⟩
    exact ⟨u2 ++ u, w ++ w2 ++ n.toList, by simp [delete_push, hw2, hw]⟩

mutual

theorem delete_push_perm : ∀ t : DTree, (delete_push t false).Perm (treeNames t)
  | .mk n cs => by
    have h := delete_push_list_perm cs
    simpa [delete_push, treeNames] using
      (h.append_right n.toList).trans List.perm_append_comm

theorem delete_push_list_perm :
    ∀ cs : List DTree, (delete_push_list cs).Perm (treeNamesList cs)
  | [] => List.Perm.refl _
  | c :: cs => by
    have h1 := delete_push_perm c
    have h2 := delete_push_list_perm cs
    simpa [delete_push_list, treeNamesList] using h1.append h2

end

theorem indexOf_append_lt {a b : String} :
    ∀ (l1 l2 : List String), (l1 ++ a :: l2).Nodup → b ∈ l2 →
      (l1 ++ a :: l2).indexOf a < (l1 ++ a :: l2).indexOf b
  | [], l2, hnd, hb => by
    simp only [List.nil_append]
    have hne : a ≠ b := by
      rintro rfl
      exact (List.nodup_cons.mp hnd).1 hb
    rw [List.indexOf_cons_self, List.indexOf_cons_ne _ hne]
    exact Nat.succ_pos _
  | h1 :: l1, l2, hnd, hb => by
    have hh := (List.nodup_cons.mp hnd).1
    have h1a : h1 ≠ a := by
      rintro rfl
      exact hh (by simp)
    have h1b : h1 ≠ b := by
      rintro rfl
      exact hh (by simp [hb])
    simp only [List.cons_append]
    rw [List.indexOf_cons_ne _ h1a, List.indexOf_cons_ne _ h1b]
    exact Nat.succ_lt_succ (indexOf_append_lt l1 l2 (List.nodup_cons.mp hnd).2 hb)

theorem foldl_erase_subset : ∀ (l reg : List String),
    l.foldl (fun r x => r.erase x) reg ⊆ reg
  | [], _ => fun _ h => h
  | x :: xs, reg => fun _ hn =>
    (List.erase_sublist x reg).subset (foldl_erase_subset xs (reg.erase x) hn)

theorem not_mem_foldl_erase : ∀ (l reg : List String), reg.Nodup →
    ∀ n ∈ l, n ∉ l.foldl (fun r x => r.erase x) reg
  | [], _, _, n, hn => absurd hn (List.not_mem_nil n)
  | x :: xs, reg, hreg, n, hn => by
    simp only [List.foldl_cons]
    rcases List.mem_cons.mp hn with h | h
    · subst h
      intro hmem
      have hsub := foldl_erase_subset xs (reg.erase n) hmem
      exact ((List.Nodup.mem_erase_iff hreg).mp hsub).1 rfl
    · exact not_mem_foldl_erase xs (reg.erase x) (hreg.erase x) n h

/-- C3, counterexample: deleting the parent "p" (with its child "p.c",
`onlyChildren = false`) returns the name list `["p", "p.c"]`, in which the
descendant's name "p.c" appears after its ancestor's name "p" — the
`cpstack` built in children-first push order is drained by `cppop` into the
returned array, which reverses it — so the claimed ordering ("no descendant
name appearing after its ancestor in the list, children before their own
parent") is false. -/
theorem c3_counterexample :
    Subtree (.mk (some "p.c") []) c3tree
    ∧ varobj_delete_list c3tree false = ["p", "p.c"]
    ∧ (varobj_delete_list c3tree false).indexOf "p"
        < (varobj_delete_list c3tree false).indexOf "p.c" := by
  refine ⟨Subtree.child (some "p") _ (Subtree.refl _) (by simp), by decide, by decide⟩

/-- C3, amended: for every variable object tree whose registered names are
pairwise distinct, `varobj_delete` with `onlyChildren = false` returns a
count equal to the number of registered names removed and a list containing
every descendant's registered name exactly once, with no ANCESTOR name
appearing after its descendant in the list (each parent's name precedes the
names of all of its descendants; the returned array is the reverse of
deletion order), and a registry lookup of any returned name fails
afterwards. -/
theorem c3_delete_amended (t : DTree) (reg : List String)
    (hN : (treeNames t).Nodup) (hreg : reg.Nodup) :
    varobj_delete_count t false = (varobj_delete_list t false).length
    ∧ (varobj_delete_list t false).Perm (treeNames t)
    ∧ (varobj_delete_list t false).Nodup
    ∧ (∀ (a : String) (cs : List DTree), Subtree (.mk (some a) cs) t →
        ∀ b ∈ treeNamesList cs,
          (varobj_delete_list t false).indexOf a
            < (varobj_delete_list t false).indexOf b)
    ∧ (∀ n ∈ varobj_delete_list t false,
        varobj_get_handle ⟨registry_after_delete reg t false, 0⟩ n
          = .error "Variable object not found") := by
  have hperm : (varobj_delete_list t false).Perm (treeNames t) :=
    ((delete_push t false).reverse_perm).trans (delete_push_perm t)
  have hnd : (varobj_delete_list t false).Nodup := hperm.nodup_iff.mpr hN
  refine ⟨by simp [varobj_delete_count, varobj_delete_list], hperm, hnd, ?_, ?_⟩
  · intro a cs hsub b hb
    rcases delete_push_split_of_subtree hsub with ⟨u, w, hw⟩
    have hw' : delete_push t false = u ++ (delete_push_list cs ++ [a]) ++ w := by
      simpa [delete_push] using hw
    have hb2 : b ∈ (delete_push_list cs).reverse ++ u.reverse := by
      have : b ∈ delete_push_list cs := (delete_push_list_perm cs).mem_iff.mpr hb
      simp [this]
    have hdec : varobj_delete_list t false
        = w.reverse ++ a :: ((delete_push_list cs).reverse ++ u.reverse) := by
      simp [varobj_delete_list, hw']
    rw [hdec]
    exact indexOf_append_lt _ _ (hdec ▸ hnd) hb2
  · intro n hn
    have hn' : n ∈ delete_push t false := by
      simpa [varobj_delete_list] using hn
    have := not_mem_foldl_erase (delete_push t false) reg hreg n hn'
    simp [varobj_get_handle, registry_after_delete, this]

/-- Witness for `c3_delete_amended` at a concrete three-node tree and
registry. -/
theorem c3_delete_amended_witness :
    (treeNames (DTree.mk (some "r")
        [.mk (some "r.a") [.mk (some "r.a.0") []], .mk (some "r.b") []])).Nodup
    ∧ (varobj_delete_list (DTree.mk (some "r")
        [.mk (some "r.a") [.mk (some "r.a.0") []], .mk (some "r.b") []]) false).Perm
        (treeNames (DTree.mk (some "r")
          [.mk (some "r.a") [.mk (some "r.a.0") []], .mk (some "r.b") []])) :=
  ⟨by decide,
   (c3_delete_amended
     (DTree.mk (some "r")
       [.mk (some "r.a") [.mk (some "r.a.0") []], .mk (some "r.b") []])
     ["r", "r.a", "r.a.0", "r.b"] (by decide) (by decide)).2.1⟩

end Varobj
